import Mathlib

/-!
Shallow embedding of the MMM-RATP fetch-and-normalize pipeline.

Sources embedded here:
* the helper functions of `js/RATPHelper.js` (parseWaitingTime,
  parseTrafficStatus, isWaitingTimeValid, isTimetableAvailable);
* the orchestrator of `node_helper.js` (fetchTimetables, fetchTraffic)
  with its previous/current snapshot state.

JS numbers holding waiting times are null, NaN, or integers in this code
(all arithmetic producing them is Math.round or integer literals), so a
waiting time is modelled as the three-valued `WTime`. JS objects are
modelled as association lists of string keys and `JSVal` values where a
claim depends on the exact property name read. `Date.now()` values are
passed as explicit integer (millisecond) parameters.
-/

/-- Model of a JS value as far as this program inspects them: the
distinguished `undefined` and `null`, NaN, integers and strings. -/
inductive JSVal where
  | undef
  | null
  | nan
  | num (n : Int)
  | str (s : String)
deriving DecidableEq, Repr

/-- Model of a JS object literal: an association list of property names
to values. -/
abbrev JSObj := List (String × JSVal)

/-- Model of JS property access `obj.k`: the first binding of the name,
or `undefined` when the object has no such property. -/
def getProp (o : JSObj) (k : String) : JSVal :=
  match o with
  | [] => .undef
  | (k0, v) :: rest => if k0 = k then v else getProp rest k

/-- A waiting-time value as produced by `parseWaitingTime`: JS `null`,
JS `NaN` (from an invalid clock-time date), or an integer number. -/
inductive WTime where
  | null
  | nan
  | num (n : Int)
deriving DecidableEq, Repr

/-- Embedding of a waiting-time value back into the JS value model. -/
def WTime.toJS : WTime → JSVal
  | .null => .null
  | .nan => .nan
  | .num n => .num n

/-- Character test for the regex class `[0-9]`. -/
def isDigitCh (c : Char) : Bool :=
  decide (48 ≤ c.toNat) && decide (c.toNat ≤ 57)

/-- Value of a non-empty digit string, as JS `Number` computes it on a
string of decimal digits. -/
def digitsToNat (cs : List Char) : Nat :=
  cs.foldl (fun a c => 10 * a + (c.toNat - 48)) 0

/-- Case folding performed by the `/i` regex flag on the characters that
can occur in the patterns of `parseWaitingTime`: ASCII letters fold to
lower case, and the letter with code 192 (capital A grave) folds to the
letter with code 224 (lowercase a grave). Other characters are left
unchanged, which agrees with non-Unicode JS regex canonicalization for
these patterns. -/
def jsLowerChar (c : Char) : Char :=
  if 65 ≤ c.toNat ∧ c.toNat ≤ 90 then Char.ofNat (c.toNat + 32)
  else if c.toNat = 192 then Char.ofNat 224
  else c

/-- Case folding of a whole string. -/
def jsToLower (s : String) : String :=
  String.mk (s.toList.map jsLowerChar)

/-- The four strings accepted by the regex
`Train (a|à) (quai|l\x27approche)` once case is folded. -/
def trainPatterns : List String :=
  ["train a quai", "train à quai", "train a l\x27approche", "train à l\x27approche"]

/-- Test of the anchored case-insensitive regex
`/^Train (a|à) (quai|l\x27approche)$/i` from `parseWaitingTime`. -/
def matchTrainAQuai (text : String) : Bool :=
  trainPatterns.contains (jsToLower text)

/-- Suffix test for the last three characters of the regex
`/^[0-9]+ mn$/i`: a space, then `m` or `M`, then `n` or `N`. -/
def mnSuffix : List Char → Bool
  | [a, b, c] => a == ' ' && (b == 'm' || b == 'M') && (c == 'n' || c == 'N')
  | _ => false

/-- Test of the anchored case-insensitive regex `/^[0-9]+ mn$/i` from
`parseWaitingTime`: at least one digit, a space, then `mn` in either
case. -/
def matchMinutes (text : String) : Bool :=
  let cs := text.toList
  decide (4 ≤ cs.length) && (cs.take (cs.length - 3)).all isDigitCh
    && mnSuffix (cs.drop (cs.length - 3))

/-- Value of `Number(text.replace(/ mn/gi, ""))` for a string matching
`/^[0-9]+ mn$/i`: the replace strips the single ` mn` suffix (the digit
prefix cannot contain a space), leaving the digit prefix. -/
def minutesValue (text : String) : Int :=
  (digitsToNat (text.toList.take (text.toList.length - 3)) : Int)

/-- The value of `text.split(" ")[0]`: the characters before the first
space. -/
def headBeforeSpace (s : String) : String :=
  String.mk (s.toList.takeWhile (fun c => c ≠ ' '))

/-- The value of `Math.round (a / b)` for an integer `a` and a positive
integer denominator `b`, computed over the integers:
`floor (a / b + 1 / 2) = fdiv (2 * a + b) (2 * b)`. JS `Math.round`
rounds half-way cases toward positive infinity, which is exactly
`round` on the exact rational `a / b` (see `roundDiv_eq_round`). -/
def roundDiv (a : Int) (b : Nat) : Int :=
  Int.fdiv (2 * a + b) (2 * b)

/-- The clock available to `parseWaitingTime` through `new Date()`:
`nowMs` is the current time in milliseconds, and `midnightMs` is the
millisecond timestamp of the current calendar date at 00:00 local time
(the date the code rebuilds from `getFullYear`, `getMonth`, `getDate`). -/
structure Clock where
  nowMs : Int
  midnightMs : Int
deriving DecidableEq, Repr

/-- Splitting a character list on a separator character, the analogue of
`String.split` on one separator. -/
def splitOnChar (sep : Char) : List Char → List (List Char)
  | [] => [[]]
  | c :: rest =>
    let r := splitOnChar sep rest
    if c = sep then [] :: r
    else
      match r with
      | [] => [[c]]
      | g :: gs => (c :: g) :: gs

/-- Modelled from the spec: the JS `new Date(string)` parsing used by
`parseWaitingTime` rule 4 is a platform builtin that is not part of this
repository; the spec (§4.1 rule 4) names the `HH:mm` clock-time format,
so the model accepts one or two hour digits and two minute digits with
hours below 24 and minutes below 60, and treats every other shape as an
invalid date. -/
def parseClockHHmm (s : String) : Option (Nat × Nat) :=
  match splitOnChar ':' s.toList with
  | [hcs, mcs] =>
    if hcs ≠ [] ∧ hcs.length ≤ 2 ∧ hcs.all isDigitCh ∧ mcs.length = 2
        ∧ mcs.all isDigitCh ∧ digitsToNat hcs < 24 ∧ digitsToNat mcs < 60
    then some (digitsToNat hcs, digitsToNat mcs)
    else none
  | _ => none

/-- Translation of `parseWaitingTime` from `js/RATPHelper.js`: the exact
string `Schedules unavailable` gives null; a train-at-platform /
train-approaching message gives 0; `<integer> mn` gives the integer; a
string containing a colon is read as a clock time `HH:mm` on the current
calendar date and gives `Math.round((passingTime - now) / 60000)` (an
invalid clock time gives an invalid date, whose arithmetic yields NaN);
anything else gives null. The function is total: no input raises. -/
def parseWaitingTime (clock : Clock) (text : String) : WTime :=
  if text = "Schedules unavailable" then .null
  else if matchTrainAQuai text then .num 0
  else if matchMinutes text then .num (minutesValue text)
  else if ':' ∈ text.toList then
    match parseClockHHmm (headBeforeSpace text) with
    | some (h, m) =>
      let target : Int := clock.midnightMs + ((h * 60 + m : Nat) : Int) * 60000
      .num (roundDiv (target - clock.nowMs) 60000)
    | none => .nan
  else .null

/-- Translation of `parseTrafficStatus` from `js/RATPHelper.js`. -/
def parseTrafficStatus (text : String) : String :=
  if text = "normal_trav" then "work"
  else if text = "alerte" then "protest"
  else if text = "critical" then "incident"
  else text

/-- Translation of `isWaitingTimeValid` from `js/RATPHelper.js`:
`time === null || time >= 0`. JS `NaN >= 0` is false, so NaN is
invalid. -/
def isWaitingTimeValid (time : WTime) : Bool :=
  match time with
  | .null => true
  | .nan => false
  | .num n => decide (0 ≤ n)

/-- Translation of `isTimetableAvailable` from `js/RATPHelper.js`:
`timetable.length && timetable[0].waiting !== null` under JS truthiness.
The property read is named `waiting`, so it is looked up in the object
model of the first entry. -/
def isTimetableAvailable (timetable : List JSObj) : Bool :=
  match timetable with
  | [] => false
  | first :: _ => getProp first "waiting" != JSVal.null

/-- One next pass as assembled by `fetchTimetables` from a raw schedule
entry: an object with exactly the properties `waitingTime` and
`destination`. -/
structure Pass where
  waitingTime : WTime
  destination : String
deriving DecidableEq, Repr

/-- The JS object underlying a pass. It has no `waiting` property, so
reading `waiting` on it yields `undefined`. -/
def Pass.toObj (p : Pass) : JSObj :=
  [("waitingTime", p.waitingTime.toJS), ("destination", .str p.destination)]

/-- One entry of a committed timetables snapshot, as assembled by
`fetchTimetables`. The JS object acquires an `estimation` property only
inside the fallback branch; reading the absent property yields
`undefined`, which is falsy, so the absent property is modelled as
`estimation = false`. -/
structure Station where
  timetable : List Pass
  lineType : String
  lineName : String
  stationName : String
  requestedAt : Int
  estimation : Bool
deriving DecidableEq, Repr

/-- One entry of a committed traffic snapshot, as assembled by
`fetchTraffic`. -/
structure Traffic where
  lineType : String
  lineName : String
  lineStatus : String
  title : String
  message : String
deriving DecidableEq, Repr

/-- The node helper state: `this.prevData` and `this.currData`, each an
object with optional `timetables` and `traffic` properties. A slot is
`none` while the property is still `undefined` (before the first
successful cycle of its category). -/
structure HelperState where
  prevTimetables : Option (List Station)
  currTimetables : Option (List Station)
  prevTraffic : Option (List Traffic)
  currTraffic : Option (List Traffic)
deriving DecidableEq, Repr

/-- One configured request entry (`config` array element): `type`,
`line`, `station`, `direction`. -/
structure ConfigEntry where
  type : String
  line : String
  station : String
  direction : String
deriving DecidableEq, Repr

/-- One element of `stations.result.stations` as the orchestrator reads
it: its `slug` and `name`. -/
structure RawStation where
  slug : String
  name : String
deriving DecidableEq, Repr

/-- One element of `timetable.result.schedules` as the orchestrator
reads it: its `message` and `destination`. -/
structure RawSchedule where
  message : String
  destination : String
deriving DecidableEq, Repr

/-- The outcome of one traffic API request (`traffic.result`): its
`slug`, `title` and `message`. -/
structure RawTraffic where
  slug : String
  title : String
  message : String
deriving DecidableEq, Repr

/-- One timetable config entry together with the outcomes of its two
API requests (the stations request and the schedules request); a
rejected request is an `error`. -/
structure EntryReq where
  cfg : ConfigEntry
  stationsResp : Except String (List RawStation)
  schedResp : Except String (List RawSchedule)

/-- One traffic config entry together with the outcome of its API
request. -/
structure TrafficReq where
  cfg : ConfigEntry
  resp : Except String RawTraffic

/-- `Promise.all`: resolves with the list of results when every element
resolved, rejects when any element rejected. -/
def promiseAll {α : Type} : List (Except String α) → Except String (List α)
  | [] => .ok []
  | .error e :: _ => .error e
  | .ok a :: rest =>
    match promiseAll rest with
    | .error e => .error e
    | .ok as => .ok (a :: as)

/-- Assembly of one timetable entry in `fetchTimetables`: the station
list is searched for the configured slug (JS `stations.find`; when it
returns `undefined`, the later `station.name` access throws, rejecting
the entry), each raw schedule is mapped through `parseWaitingTime`, and
the entry records `requestedAt = Date.now()` (the `fetchNow`
parameter). A rejection of either request rejects the joined entry. -/
def buildEntry (clock : Clock) (fetchNow : Int) (req : EntryReq) : Except String Station :=
  match req.stationsResp, req.schedResp with
  | .ok stations, .ok scheds =>
    match stations.find? (fun s => s.slug = req.cfg.station) with
    | some s =>
      .ok { timetable := scheds.map (fun r =>
              { waitingTime := parseWaitingTime clock r.message, destination := r.destination }),
            lineType := req.cfg.type, lineName := req.cfg.line, stationName := s.name,
            requestedAt := fetchNow, estimation := false }
    | none => .error "TypeError: station is undefined"
  | .error e, _ => .error e
  | .ok _, .error e => .error e

/-- The fan-out phase of `fetchTimetables`: every configured entry is
assembled concurrently and joined by `Promise.all`. -/
def assembleAll (clock : Clock) (fetchNow : Int) (reqs : List EntryReq) :
    Except String (List Station) :=
  promiseAll (reqs.map (buildEntry clock fetchNow))

/-- One estimated pass of the fallback branch: spread of the previous
pass with `waitingTime` replaced by
`Math.round(nextPass.waitingTime - ((Date.now() - prevRequestedAt) / 60000))`.
JS coerces a `null` waiting time to 0 inside the subtraction, and NaN
propagates; for an integer `w` the value is the exact rational
`w - elapsed / 60000`, rounded (see `roundDiv_sub_eq_round`). -/
def estimateWT (wt : WTime) (elapsedMs : Int) : WTime :=
  match wt with
  | .null => .num (roundDiv (60000 * 0 - elapsedMs) 60000)
  | .nan => .nan
  | .num w => .num (roundDiv (60000 * w - elapsedMs) 60000)

/-- The estimated pass built from one previous pass (`{ ...nextPass,
waitingTime }`): destination preserved, waiting time re-estimated. -/
def estimatePass (now prevRequestedAt : Int) (p : Pass) : Pass :=
  { p with waitingTime := estimateWT p.waitingTime (now - prevRequestedAt) }

/-- The unconditional final filter of `fetchTimetables`:
`station.timetable.filter((nextPass) => isWaitingTimeValid(nextPass.waitingTime))`. -/
def applyFilter (s : Station) : Station :=
  { s with timetable := s.timetable.filter (fun p => isWaitingTimeValid p.waitingTime) }

/-- The body of the `timetables.map((station, idx) => ...)` commit
callback: when the fresh timetable is unavailable and a previous
snapshot exists, the previous entry at the same index is read without an
existence guard (`this.prevData.timetables[idx].timetable` throws a
TypeError when the index is out of range); when that previous entry is
available, the entry is replaced by the estimation; finally the filter
runs unconditionally. -/
def transformEntry (now : Int) (prevOpt : Option (List Station)) (idx : Nat) (s : Station) :
    Except String Station :=
  if isTimetableAvailable (s.timetable.map Pass.toObj) then .ok (applyFilter s)
  else
    match prevOpt with
    | none => .ok (applyFilter s)
    | some prev =>
      match prev[idx]? with
      | none => .error "TypeError: cannot read property timetable of undefined"
      | some prevEntry =>
        if isTimetableAvailable (prevEntry.timetable.map Pass.toObj) then
          .ok (applyFilter { s with
            timetable := prevEntry.timetable.map (estimatePass now prevEntry.requestedAt),
            requestedAt := prevEntry.requestedAt,
            estimation := true })
        else .ok (applyFilter s)

/-- `Array.prototype.map` over the fetched entries with the running
index, stopping at the first callback throw (the partially built array
is then discarded, exactly as a thrown TypeError discards the `map`
result before it is assigned). -/
def mapEntriesFrom (now : Int) (prevOpt : Option (List Station)) (idx : Nat) :
    List Station → Except String (List Station)
  | [] => .ok []
  | s :: rest =>
    match transformEntry now prevOpt idx s with
    | .error e => .error e
    | .ok s' =>
      match mapEntriesFrom now prevOpt (idx + 1) rest with
      | .error e => .error e
      | .ok rest' => .ok (s' :: rest')

/-- The outcome of one `fetchTimetables` call: the helper state after
the call, the settled promise, and whether a `DATA_TIMETABLES`
notification was dispatched. -/
structure FetchResult where
  state : HelperState
  result : Except String (List Station)
  notified : Bool
deriving Repr

/-- The outcome of one `fetchTraffic` call. -/
structure TrafficResult where
  state : HelperState
  result : Except String (List Traffic)
  notified : Bool
deriving Repr

/-- Translation of `fetchTimetables` from `node_helper.js`. The fan-out
phase joins all requests; a rejection there leaves the state untouched.
On success the commit callback first rotates
`this.prevData.timetables = this.currData.timetables`, then maps the
fetched entries (reading the just-rotated previous snapshot in the
fallback); a throw inside the map leaves `currData.timetables`
unassigned; otherwise the new list is installed, the notification is
sent when `options.notify` holds, and the promise resolves with the new
list. `Date.now()` of the assembly phase is `fetchNow`, that of the
commit phase is `commitNow`. -/
def fetchTimetables (clock : Clock) (fetchNow commitNow : Int) (reqs : List EntryReq)
    (notify : Bool) (st : HelperState) : FetchResult :=
  match assembleAll clock fetchNow reqs with
  | .error e => ⟨st, .error e, false⟩
  | .ok fetched =>
    match mapEntriesFrom commitNow st.currTimetables 0 fetched with
    | .error e => ⟨{ st with prevTimetables := st.currTimetables }, .error e, false⟩
    | .ok out =>
      ⟨{ st with prevTimetables := st.currTimetables, currTimetables := some out },
        .ok out, notify⟩

/-- Assembly of one traffic entry in `fetchTraffic`. -/
def buildTraffic (req : TrafficReq) : Except String Traffic :=
  match req.resp with
  | .error e => .error e
  | .ok raw =>
    .ok { lineType := req.cfg.type, lineName := req.cfg.line,
          lineStatus := parseTrafficStatus raw.slug, title := raw.title,
          message := raw.message }

/-- Translation of `fetchTraffic` from `node_helper.js`: join all
requests, and on success rotate `prevData.traffic = currData.traffic`,
install the new list, and notify when requested. -/
def fetchTraffic (reqs : List TrafficReq) (notify : Bool) (st : HelperState) : TrafficResult :=
  match promiseAll (reqs.map buildTraffic) with
  | .error e => ⟨st, .error e, false⟩
  | .ok traffic =>
    ⟨{ st with prevTraffic := st.currTraffic, currTraffic := some traffic },
      .ok traffic, notify⟩

/-! ### Smoke tests of the embedding on the concrete inputs named by the
specification -/

example : parseWaitingTime ⟨0, 0⟩ "Schedules unavailable" = .null := by decide
example : parseWaitingTime ⟨0, 0⟩ "Train à quai" = .num 0 := by decide
example : parseWaitingTime ⟨0, 0⟩ "TRAIN A L\x27APPROCHE" = .num 0 := by decide
example : parseWaitingTime ⟨0, 0⟩ "7 mn" = .num 7 := by decide
example : parseWaitingTime ⟨0, 0⟩ "7 MN" = .num 7 := by decide
example : parseWaitingTime ⟨0, 0⟩ "garbage" = .null := by decide
example : parseWaitingTime ⟨85800000, 0⟩ "23:59 voie 2" = .num 9 := by decide
example : parseWaitingTime ⟨600000, 0⟩ "0:05" = .num (-5) := by decide
example : parseWaitingTime ⟨600000, 0⟩ "ab:cd" = .nan := by decide
example : parseTrafficStatus "normal_trav" = "work" := by decide
example : isWaitingTimeValid .null = true := by decide
example : isWaitingTimeValid (.num (-1)) = false := by decide
example : isWaitingTimeValid (.num 0) = true := by decide
example : isTimetableAvailable [] = false := by decide
example : isTimetableAvailable [[("waiting", JSVal.null)], [("waiting", JSVal.num 5)]] = false := by
  decide
example : isTimetableAvailable [[("waiting", JSVal.num 3)]] = true := by decide

/-! ### Bridging lemmas between the integer rounding of the embedding
and mathematical rounding -/

/-- The integer rounding used in the embedding agrees with mathematical
rounding of the exact quotient. -/
theorem roundDiv_eq_round (a : Int) (b : Nat) (hb : 0 < b) :
    roundDiv a b = round ((a : ℚ) / (b : ℚ)) := by
  have hbq : ((b : ℚ)) ≠ 0 := by
    exact_mod_cast Nat.pos_iff_ne_zero.mp hb
  have h1 : (a : ℚ) / (b : ℚ) + 1 / 2 = ((2 * a + b : ℤ) : ℚ) / ((2 * b : ℕ) : ℚ) := by
    push_cast
    field_simp
    ring
  rw [round_eq, h1, Rat.floor_intCast_div_natCast, roundDiv,
    Int.fdiv_eq_ediv _ (by positivity)]
  push_cast
  rfl

/-- Rounding a difference of an integer and an exact quotient reduces to
`roundDiv` over a common denominator; this is the form used by the
estimation fallback. -/
theorem roundDiv_sub_eq_round (w e : Int) :
    roundDiv (60000 * w - e) 60000 = round ((w : ℚ) - (e : ℚ) / 60000) := by
  rw [roundDiv_eq_round _ _ (by norm_num)]
  congr 1
  push_cast
  field_simp
  ring

/-! ### Helper lemmas about the embedding -/

/-- Reading the `waiting` property on a pass object yields `undefined`:
the assembled passes only carry `waitingTime` and `destination`. -/
theorem getProp_waiting_toObj (p : Pass) : getProp (Pass.toObj p) "waiting" = JSVal.undef := rfl

/-- On pass objects assembled by the orchestrator, availability
degenerates to non-emptiness, because `undefined !== null` holds. -/
theorem isTimetableAvailable_map_toObj (l : List Pass) :
    isTimetableAvailable (l.map Pass.toObj) = !l.isEmpty := by
  cases l with
  | nil => rfl
  | cons p rest =>
    simp [isTimetableAvailable, getProp_waiting_toObj]

/-- A rejected element rejects the whole `Promise.all`. -/
theorem promiseAll_error_at {α : Type} :
    ∀ (l : List (Except String α)) (i : Nat) (e0 : String),
      l[i]? = some (.error e0) → ∃ e, promiseAll l = .error e := by
  intro l
  induction l with
  | nil => intro i e0 h; simp at h
  | cons x rest ih =>
    intro i e0 h
    cases i with
    | zero =>
      simp at h
      subst h
      exact ⟨e0, rfl⟩
    | succ i =>
      simp at h
      cases x with
      | error e => exact ⟨e, rfl⟩
      | ok a =>
        obtain ⟨e, he⟩ := ih i e0 h
        exact ⟨e, by simp [promiseAll, he]⟩

/-- A resolved `Promise.all` resolves positionally: the i-th result is
the i-th element's resolution. -/
theorem promiseAll_ok_at {α : Type} :
    ∀ (l : List (Except String α)) (as : List α), promiseAll l = .ok as →
      ∀ (i : Nat) (a : α), as[i]? = some a → l[i]? = some (.ok a) := by
  intro l
  induction l with
  | nil =>
    intro as h i a ha
    simp [promiseAll] at h
    subst h
    simp at ha
  | cons x rest ih =>
    intro as h i a ha
    cases x with
    | error e => simp [promiseAll] at h
    | ok a0 =>
      cases hrest : promiseAll rest with
      | error e => simp [promiseAll, hrest] at h
      | ok as' =>
        simp [promiseAll, hrest] at h
        subst h
        cases i with
        | zero =>
          simp at ha
          subst ha
          simp
        | succ i =>
          simp at ha ⊢
          exact ih as' hrest i a ha

/-- A resolved commit map is positional: the i-th committed entry is the
transform of the i-th fetched entry at index i. -/
theorem mapEntriesFrom_ok_get (now : Int) (prevOpt : Option (List Station)) :
    ∀ (l out : List Station) (k i : Nat) (s : Station),
      mapEntriesFrom now prevOpt k l = .ok out → l[i]? = some s →
      ∃ e, transformEntry now prevOpt (k + i) s = .ok e ∧ out[i]? = some e := by
  intro l
  induction l with
  | nil => intro out k i s h hs; simp at hs
  | cons s0 rest ih =>
    intro out k i s h hs
    rw [mapEntriesFrom] at h
    cases ht : transformEntry now prevOpt k s0 with
    | error e => rw [ht] at h; simp at h
    | ok s0' =>
      rw [ht] at h
      cases hm : mapEntriesFrom now prevOpt (k + 1) rest with
      | error e => rw [hm] at h; simp at h
      | ok rest' =>
        rw [hm] at h
        simp at h
        subst h
        cases i with
        | zero =>
          simp at hs
          subst hs
          exact ⟨s0', by simpa using ht, by simp⟩
        | succ i =>
          simp at hs
          obtain ⟨e, h1, h2⟩ := ih rest' (k + 1) i s hm hs
          refine ⟨e, ?_, by simpa using h2⟩
          have hidx : k + 1 + i = k + (i + 1) := by omega
          rwa [hidx] at h1

/-- A throwing transform at any index rejects the whole commit map. -/
theorem mapEntriesFrom_error_at (now : Int) (prevOpt : Option (List Station)) :
    ∀ (l : List Station) (k i : Nat) (s : Station) (e0 : String),
      l[i]? = some s → transformEntry now prevOpt (k + i) s = .error e0 →
      ∃ e, mapEntriesFrom now prevOpt k l = .error e := by
  intro l
  induction l with
  | nil => intro k i s e0 hs ht; simp at hs
  | cons s0 rest ih =>
    intro k i s e0 hs ht
    cases i with
    | zero =>
      simp at hs
      subst hs
      refine ⟨e0, ?_⟩
      rw [mapEntriesFrom]
      simp only [Nat.add_zero] at ht
      rw [ht]
    | succ i =>
      simp at hs
      cases ht0 : transformEntry now prevOpt k s0 with
      | error e => exact ⟨e, by rw [mapEntriesFrom, ht0]⟩
      | ok s0' =>
        have hidx : k + (i + 1) = k + 1 + i := by omega
        rw [hidx] at ht
        obtain ⟨e, he⟩ := ih (k + 1) i s e0 hs ht
        exact ⟨e, by rw [mapEntriesFrom, ht0, he]⟩

/-- Every entry the commit callback returns has passed through the final
validity filter. -/
theorem transformEntry_ok_shape (now : Int) (prevOpt : Option (List Station)) (idx : Nat)
    (s s' : Station) (h : transformEntry now prevOpt idx s = .ok s') :
    ∃ s0, s' = applyFilter s0 := by
  unfold transformEntry at h
  split at h
  · exact ⟨s, (Except.ok.inj h).symm⟩
  · split at h
    · exact ⟨s, (Except.ok.inj h).symm⟩
    · split at h
      · simp at h
      · split at h
        · exact ⟨_, (Except.ok.inj h).symm⟩
        · exact ⟨s, (Except.ok.inj h).symm⟩

/-- Every member of a resolved commit map comes from a transform call. -/
theorem mapEntriesFrom_ok_mem (now : Int) (prevOpt : Option (List Station)) :
    ∀ (l out : List Station) (k : Nat), mapEntriesFrom now prevOpt k l = .ok out →
      ∀ s' ∈ out, ∃ idx s, transformEntry now prevOpt idx s = .ok s' := by
  intro l
  induction l with
  | nil =>
    intro out k h s' hs'
    simp [mapEntriesFrom] at h
    subst h
    simp at hs'
  | cons s0 rest ih =>
    intro out k h s' hs'
    rw [mapEntriesFrom] at h
    cases ht : transformEntry now prevOpt k s0 with
    | error e => rw [ht] at h; simp at h
    | ok s0' =>
      rw [ht] at h
      cases hm : mapEntriesFrom now prevOpt (k + 1) rest with
      | error e => rw [hm] at h; simp at h
      | ok rest' =>
        rw [hm] at h
        simp at h
        subst h
        rcases List.mem_cons.mp hs' with h1 | h1
        · exact ⟨k, s0, by rw [ht, h1]⟩
        · exact ih rest' (k + 1) hm s' h1

/-- A station assembled by `buildEntry` carries the fetch timestamp, no
estimation mark, and the parsed schedule list. -/
theorem buildEntry_ok_shape (clock : Clock) (fetchNow : Int) (req : EntryReq) (s : Station)
    (h : buildEntry clock fetchNow req = .ok s) :
    s.estimation = false ∧ s.requestedAt = fetchNow := by
  unfold buildEntry at h
  split at h
  · split at h
    · have := Except.ok.inj h
      subst this
      exact ⟨rfl, rfl⟩
    · simp at h
  · simp at h
  · simp at h

/-- A rejected station or schedule request rejects the assembled
entry. -/
theorem buildEntry_error (clock : Clock) (fetchNow : Int) (req : EntryReq) (e0 : String)
    (h : req.stationsResp = .error e0 ∨ req.schedResp = .error e0) :
    ∃ e, buildEntry clock fetchNow req = .error e := by
  unfold buildEntry
  rcases h with h | h
  · rw [h]
    exact ⟨e0, rfl⟩
  · rw [h]
    cases hs : req.stationsResp with
    | error e => exact ⟨e, rfl⟩
    | ok stations => exact ⟨e0, rfl⟩

/-- Case folding leaves a digit character unchanged. -/
theorem jsLowerChar_of_digit (c : Char) (h : isDigitCh c = true) : jsLowerChar c = c := by
  simp only [isDigitCh, Bool.and_eq_true, decide_eq_true_eq] at h
  obtain ⟨h1, h2⟩ := h
  unfold jsLowerChar
  rw [if_neg (by omega), if_neg (by omega)]

/-- A string matched by the train regex starts, after case folding, with
the letter t. -/
theorem matchTrainAQuai_head (text : String) (h : matchTrainAQuai text = true) :
    (text.toList.map jsLowerChar).head? = some 't' := by
  simp only [matchTrainAQuai, trainPatterns, List.contains, List.elem_eq_mem,
    List.mem_cons, List.not_mem_nil, or_false, decide_eq_true_eq] at h
  have h' : (jsToLower text).toList.head? = some 't' := by
    rcases h with h | h | h | h <;> rw [h] <;> rfl
  exact h'

/-- The train regex and the minutes regex are disjoint: a matched train
message starts with a letter, a matched minutes message with a digit. -/
theorem matchTrainAQuai_not_minutes (text : String) (h : matchTrainAQuai text = true) :
    matchMinutes text = false := by
  cases hm : matchMinutes text with
  | false => rfl
  | true =>
    exfalso
    have hhead := matchTrainAQuai_head text h
    simp only [matchMinutes, Bool.and_eq_true, decide_eq_true_eq] at hm
    obtain ⟨⟨hlen, hall⟩, hsuf⟩ := hm
    cases hcs : text.toList with
    | nil => rw [hcs] at hlen; simp at hlen
    | cons c rest =>
      rw [hcs] at hlen hall hhead
      have hrl : 3 ≤ rest.length := by
        simp only [List.length_cons] at hlen
        omega
      have hk : (c :: rest).length - 3 = (rest.length - 3) + 1 := by
        simp only [List.length_cons]
        omega
      rw [hk, List.take_succ_cons, List.all_cons, Bool.and_eq_true] at hall
      obtain ⟨hcd, _⟩ := hall
      simp only [List.map_cons, List.head?_cons, Option.some.injEq] at hhead
      rw [jsLowerChar_of_digit c hcd] at hhead
      subst hhead
      exact absurd hcd (by decide)

/-- Case analysis on one `fetchTimetables` call: a fan-out rejection
(state untouched), a commit throw (only the previous slot rotated), or a
successful commit. -/
theorem fetchTimetables_eq (clock : Clock) (fetchNow commitNow : Int) (reqs : List EntryReq)
    (notify : Bool) (st : HelperState) :
    (∃ e, assembleAll clock fetchNow reqs = .error e ∧
       fetchTimetables clock fetchNow commitNow reqs notify st = ⟨st, .error e, false⟩)
    ∨ (∃ fetched e, assembleAll clock fetchNow reqs = .ok fetched ∧
       mapEntriesFrom commitNow st.currTimetables 0 fetched = .error e ∧
       fetchTimetables clock fetchNow commitNow reqs notify st =
         ⟨{ st with prevTimetables := st.currTimetables }, .error e, false⟩)
    ∨ (∃ fetched out, assembleAll clock fetchNow reqs = .ok fetched ∧
       mapEntriesFrom commitNow st.currTimetables 0 fetched = .ok out ∧
       fetchTimetables clock fetchNow commitNow reqs notify st =
         ⟨{ st with prevTimetables := st.currTimetables, currTimetables := some out },
           .ok out, notify⟩) := by
  unfold fetchTimetables
  split
  next e heq => exact .inl ⟨e, heq, rfl⟩
  next fetched heq =>
    split
    next e heq2 => exact .inr (.inl ⟨fetched, e, heq, heq2, rfl⟩)
    next out heq2 => exact .inr (.inr ⟨fetched, out, heq, heq2, rfl⟩)

/-- Case analysis on one `fetchTraffic` call: a fan-out rejection (state
untouched) or a successful commit. -/
theorem fetchTraffic_eq (reqs : List TrafficReq) (notify : Bool) (st : HelperState) :
    (∃ e, promiseAll (reqs.map buildTraffic) = .error e ∧
       fetchTraffic reqs notify st = ⟨st, .error e, false⟩)
    ∨ (∃ traffic, promiseAll (reqs.map buildTraffic) = .ok traffic ∧
       fetchTraffic reqs notify st =
         ⟨{ st with prevTraffic := st.currTraffic, currTraffic := some traffic },
           .ok traffic, notify⟩) := by
  unfold fetchTraffic
  split
  next e heq => exact .inl ⟨e, heq, rfl⟩
  next t heq => exact .inr ⟨t, heq, rfl⟩

/-! ### Claim theorems -/

/-- C2: for every timetable, `isTimetableAvailable` returns true if and
only if the sequence is non-empty and the first entry's `waiting`
property is not null; the empty timetable is unavailable, and a timetable
whose first entry's waiting time is null is unavailable even when later
entries carry non-null values. -/
theorem isTimetableAvailable_spec :
    (∀ ta : List JSObj, isTimetableAvailable ta = true ↔
      ∃ first rest, ta = first :: rest ∧ getProp first "waiting" ≠ JSVal.null)
    ∧ isTimetableAvailable [] = false
    ∧ (∀ (first : JSObj) (rest : List JSObj), getProp first "waiting" = JSVal.null →
        isTimetableAvailable (first :: rest) = false) := by
  refine ⟨?_, rfl, ?_⟩
  · intro ta
    cases ta with
    | nil => simp [isTimetableAvailable]
    | cons f r =>
      simp only [isTimetableAvailable, bne_iff_ne, ne_eq]
      constructor
      · intro hne
        exact ⟨f, r, rfl, hne⟩
      · rintro ⟨f', r', heq, hne⟩
        injection heq with h1 h2
        subst h1
        exact hne
  · intro f r h
    simp [isTimetableAvailable, h]

/-- Witness for C2 at the concrete timetables named by the
specification. -/
theorem isTimetableAvailable_spec_witness :
    isTimetableAvailable [[("waiting", JSVal.num 3)]] = true ∧
    isTimetableAvailable [[("waiting", JSVal.null)], [("waiting", JSVal.num 5)]] = false :=
  ⟨(isTimetableAvailable_spec.1 _).mpr ⟨_, _, rfl, by decide⟩,
    isTimetableAvailable_spec.2.2 [("waiting", JSVal.null)] [[("waiting", JSVal.num 5)]]
      (by decide)⟩

/-- C8: `parseTrafficStatus` maps `normal_trav` to `work`, `alerte` to
`protest`, `critical` to `incident`, and returns every other input
unchanged. -/
theorem parseTrafficStatus_spec :
    parseTrafficStatus "normal_trav" = "work"
    ∧ parseTrafficStatus "alerte" = "protest"
    ∧ parseTrafficStatus "critical" = "incident"
    ∧ ∀ text, text ≠ "normal_trav" → text ≠ "alerte" → text ≠ "critical" →
        parseTrafficStatus text = text := by
  refine ⟨rfl, rfl, rfl, ?_⟩
  intro text h1 h2 h3
  simp [parseTrafficStatus, h1, h2, h3]

/-- Witness for C8: an unrecognized code passes through unchanged. -/
theorem parseTrafficStatus_spec_witness :
    parseTrafficStatus "unknown_code" = "unknown_code" :=
  parseTrafficStatus_spec.2.2.2 "unknown_code" (by decide) (by decide) (by decide)

/-- A string matched by the minutes regex parses to its integer,
independently of the clock: the earlier rules cannot match it. -/
theorem parseWaitingTime_minutes_aux (clock : Clock) (text : String)
    (h : matchMinutes text = true) :
    parseWaitingTime clock text = WTime.num (minutesValue text) := by
  have hne : text ≠ "Schedules unavailable" := by
    rintro rfl
    exact absurd h (by decide)
  have htr : matchTrainAQuai text = false := by
    cases htr : matchTrainAQuai text with
    | false => rfl
    | true =>
      rw [matchTrainAQuai_not_minutes text htr] at h
      exact absurd h (by simp)
  simp [parseWaitingTime, hne, htr, h]

/-- C4: the rules of `parseWaitingTime` apply in order with first match
winning: the exact string `Schedules unavailable` yields null; every
string matching the case-insensitive whole-string train regex yields 0;
every string matching the case-insensitive `<integer> mn` regex yields
that integer (`7 mn` and `7 MN` both yield 7); and every input matching
none of the rules, the colon rule of rule 4 included, yields null. The
embedded function is total, so no input string raises an exception. -/
theorem parseWaitingTime_rules :
    (∀ clock : Clock, parseWaitingTime clock "Schedules unavailable" = WTime.null)
    ∧ (∀ (clock : Clock) (text : String), matchTrainAQuai text = true →
        parseWaitingTime clock text = WTime.num 0)
    ∧ (∀ (clock : Clock) (text : String), matchMinutes text = true →
        parseWaitingTime clock text = WTime.num (minutesValue text))
    ∧ (∀ clock : Clock,
        parseWaitingTime clock "7 mn" = WTime.num 7 ∧ parseWaitingTime clock "7 MN" = WTime.num 7)
    ∧ (∀ (clock : Clock) (text : String), text ≠ "Schedules unavailable" →
        matchTrainAQuai text = false → matchMinutes text = false → ':' ∉ text.toList →
        parseWaitingTime clock text = WTime.null) := by
  refine ⟨fun clock => rfl, ?_, ?_, ?_, ?_⟩
  · intro clock text h
    have hne : text ≠ "Schedules unavailable" := by
      rintro rfl
      exact absurd h (by decide)
    simp [parseWaitingTime, hne, h]
  · exact parseWaitingTime_minutes_aux
  · intro clock
    constructor
    · rw [parseWaitingTime_minutes_aux clock "7 mn" (by decide)]
      decide
    · rw [parseWaitingTime_minutes_aux clock "7 MN" (by decide)]
      decide
  · intro clock text h1 h2 h3 h4
    simp only [parseWaitingTime, if_neg h1, h2, h3, Bool.false_eq_true, if_false]
    rw [if_neg h4]

/-- Witness for C4: an unparseable string degrades to null, and a
minutes string yields its integer. -/
theorem parseWaitingTime_rules_witness :
    parseWaitingTime ⟨0, 0⟩ "garbage" = WTime.null ∧
    parseWaitingTime ⟨0, 0⟩ "12 mn" = WTime.num (minutesValue "12 mn") :=
  ⟨parseWaitingTime_rules.2.2.2.2 ⟨0, 0⟩ "garbage" (by decide) (by decide) (by decide)
      (by decide),
    parseWaitingTime_rules.2.2.1 ⟨0, 0⟩ "12 mn" (by decide)⟩

/-- C7: an input failing rules 1 to 3 that contains a colon and whose
text before the first space is a valid clock time is interpreted as that
clock time on the current calendar date, and the parser returns
`round((targetDateTime - now) / 60000)`; the result may be negative when
the clock time has just passed (witnessed at 00:10 for the clock time
00:05), and the parser itself does not reject the negative value. -/
theorem parseWaitingTime_clockTime :
    (∀ (clock : Clock) (text : String) (hh mm : Nat),
      text ≠ "Schedules unavailable" → matchTrainAQuai text = false →
      matchMinutes text = false → ':' ∈ text.toList →
      parseClockHHmm (headBeforeSpace text) = some (hh, mm) →
      parseWaitingTime clock text =
        WTime.num (round
          (((clock.midnightMs : ℚ) + ((hh * 60 + mm : Nat) : ℚ) * 60000 - (clock.nowMs : ℚ))
            / 60000)))
    ∧ parseWaitingTime ⟨600000, 0⟩ "0:05" = WTime.num (-5)
    ∧ isWaitingTimeValid (WTime.num (-5)) = false := by
  refine ⟨?_, by decide, by decide⟩
  intro clock text hh mm h1 h2 h3 h4 h5
  simp only [parseWaitingTime, if_neg h1, h2, h3, Bool.false_eq_true, if_false]
  rw [if_pos h4, h5]
  show WTime.num
      (roundDiv (clock.midnightMs + ((hh * 60 + mm : Nat) : Int) * 60000 - clock.nowMs) 60000)
    = _
  have hb := roundDiv_eq_round
    (clock.midnightMs + ((hh * 60 + mm : Nat) : Int) * 60000 - clock.nowMs) 60000 (by norm_num)
  rw [hb]
  congr 1
  push_cast
  ring

/-- Witness for C7: the spec scenario of a 23:59 arrival read at 23:50
yields 9 minutes, and a just-passed clock time yields a negative
value. -/
theorem parseWaitingTime_clockTime_witness :
    parseWaitingTime ⟨85800000, 0⟩ "23:59 voie 2" = WTime.num 9 ∧
    parseWaitingTime ⟨600000, 0⟩ "0:05" = WTime.num (-5) := by
  constructor
  · have h := parseWaitingTime_clockTime.1 ⟨85800000, 0⟩ "23:59 voie 2" 23 59
      (by decide) (by decide) (by decide) (by decide) (by decide)
    rw [h]
    have h9 : (((0 : Int) : ℚ) + ((23 * 60 + 59 : ℕ) : ℚ) * 60000 - ((85800000 : Int) : ℚ))
        / 60000 = 9 := by norm_num
    rw [h9]
    norm_num
  · exact parseWaitingTime_clockTime.2.1

/-- C3: `isWaitingTimeValid` holds exactly of null and of non-negative
numbers; the final filter keeps null passes, drops negative passes, and
every pass of every committed and returned `fetchTimetables` timetable
satisfies the predicate. -/
theorem isWaitingTimeValid_spec :
    (∀ t : WTime, isWaitingTimeValid t = true ↔
      (t = WTime.null ∨ ∃ n : Int, t = WTime.num n ∧ 0 ≤ n))
    ∧ (∀ (l : List Pass) (p : Pass), p ∈ l → p.waitingTime = WTime.null →
        p ∈ l.filter (fun q => isWaitingTimeValid q.waitingTime))
    ∧ (∀ (l : List Pass) (p : Pass) (n : Int), p.waitingTime = WTime.num n → n < 0 →
        p ∉ l.filter (fun q => isWaitingTimeValid q.waitingTime))
    ∧ (∀ (clock : Clock) (fetchNow commitNow : Int) (reqs : List EntryReq) (notify : Bool)
        (st : HelperState) (out : List Station),
        (fetchTimetables clock fetchNow commitNow reqs notify st).result = .ok out →
        ∀ s ∈ out, ∀ p ∈ s.timetable, isWaitingTimeValid p.waitingTime = true) := by
  refine ⟨?_, ?_, ?_, ?_⟩
  · intro t
    cases t with
    | null => simp [isWaitingTimeValid]
    | nan => simp [isWaitingTimeValid]
    | num n => simp [isWaitingTimeValid]
  · intro l p hp hw
    rw [List.mem_filter]
    exact ⟨hp, by rw [hw]; rfl⟩
  · intro l p n hw hn hmem
    rw [List.mem_filter, hw] at hmem
    have := hmem.2
    simp [isWaitingTimeValid] at this
    omega
  · intro clock fetchNow commitNow reqs notify st out hok s hs p hp
    rcases fetchTimetables_eq clock fetchNow commitNow reqs notify st with
      ⟨e, ha, heq⟩ | ⟨fetched, e, ha, hm, heq⟩ | ⟨fetched, out', ha, hm, heq⟩
    · rw [heq] at hok
      simp at hok
    · rw [heq] at hok
      simp at hok
    · rw [heq] at hok
      simp only [Except.ok.injEq] at hok
      subst hok
      obtain ⟨idx, s0, hts⟩ :=
        mapEntriesFrom_ok_mem commitNow st.currTimetables fetched out' 0 hm s hs
      obtain ⟨sb, rfl⟩ := transformEntry_ok_shape commitNow st.currTimetables idx s0 s hts
      rw [applyFilter, List.mem_filter] at hp
      exact hp.2

/-- Witness for C3: a concrete successful cycle whose committed passes
all satisfy the validity predicate, applied to the null pass it
contains. -/
theorem isWaitingTimeValid_spec_witness :
    isWaitingTimeValid (Pass.mk WTime.null "X").waitingTime = true :=
  isWaitingTimeValid_spec.2.2.2 ⟨0, 0⟩ 0 0
    [⟨⟨"metro", "14", "pyramides", "A"⟩, .ok [⟨"pyramides", "Pyramides"⟩],
      .ok [⟨"Schedules unavailable", "X"⟩, ⟨"3 mn", "Y"⟩]⟩] true
    ⟨none, none, none, none⟩
    [⟨[⟨WTime.null, "X"⟩, ⟨WTime.num 3, "Y"⟩], "metro", "14", "Pyramides", 0, false⟩]
    rfl
    ⟨[⟨WTime.null, "X"⟩, ⟨WTime.num 3, "Y"⟩], "metro", "14", "Pyramides", 0, false⟩
    (by decide) ⟨WTime.null, "X"⟩ (by decide)

/-- C5: when any station, schedule, or traffic request of a cycle
rejects, the batch of that category is aborted: the operation rejects,
every snapshot slot is exactly as before the call, and no notification
is dispatched for the category. -/
theorem fetch_failure_aborts_batch :
    (∀ (clock : Clock) (fetchNow commitNow : Int) (reqs : List EntryReq) (notify : Bool)
        (st : HelperState) (i : Nat) (req : EntryReq) (e0 : String),
      reqs[i]? = some req →
      (req.stationsResp = .error e0 ∨ req.schedResp = .error e0) →
      (∃ e, (fetchTimetables clock fetchNow commitNow reqs notify st).result = .error e)
        ∧ (fetchTimetables clock fetchNow commitNow reqs notify st).state = st
        ∧ (fetchTimetables clock fetchNow commitNow reqs notify st).notified = false)
    ∧ (∀ (reqs : List TrafficReq) (notify : Bool) (st : HelperState) (i : Nat)
        (req : TrafficReq) (e0 : String),
      reqs[i]? = some req → req.resp = .error e0 →
      (∃ e, (fetchTraffic reqs notify st).result = .error e)
        ∧ (fetchTraffic reqs notify st).state = st
        ∧ (fetchTraffic reqs notify st).notified = false) := by
  constructor
  · intro clock fetchNow commitNow reqs notify st i req e0 hreq hresp
    obtain ⟨eb, heb⟩ := buildEntry_error clock fetchNow req e0 hresp
    have hmap : (reqs.map (buildEntry clock fetchNow))[i]? = some (.error eb) := by
      rw [List.getElem?_map, hreq]
      simp [heb]
    obtain ⟨e, he⟩ := promiseAll_error_at _ i eb hmap
    rcases fetchTimetables_eq clock fetchNow commitNow reqs notify st with
      ⟨e', ha, heq⟩ | ⟨fetched, e', ha, hm, heq⟩ | ⟨fetched, out', ha, hm, heq⟩
    · rw [heq]
      exact ⟨⟨e', rfl⟩, rfl, rfl⟩
    · rw [show assembleAll clock fetchNow reqs = .error e from he] at ha
      simp at ha
    · rw [show assembleAll clock fetchNow reqs = .error e from he] at ha
      simp at ha
  · intro reqs notify st i req e0 hreq hresp
    have hb : buildTraffic req = .error e0 := by
      unfold buildTraffic
      rw [hresp]
    have hmap : (reqs.map buildTraffic)[i]? = some (.error e0) := by
      rw [List.getElem?_map, hreq]
      simp [hb]
    obtain ⟨e, he⟩ := promiseAll_error_at _ i e0 hmap
    rcases fetchTraffic_eq reqs notify st with ⟨e', ha, heq⟩ | ⟨t, ha, heq⟩
    · rw [heq]
      exact ⟨⟨e', rfl⟩, rfl, rfl⟩
    · rw [he] at ha
      simp at ha

/-- Witness for C5: one rejected station request aborts a timetables
cycle, and one rejected traffic request aborts a traffic cycle, each
leaving the state untouched and unnotified. -/
theorem fetch_failure_aborts_batch_witness :
    ((∃ e, (fetchTimetables ⟨0, 0⟩ 0 0
          [⟨⟨"metro", "14", "pyramides", "A"⟩, .error "boom", .ok []⟩] true
          ⟨none, none, none, none⟩).result = .error e)
      ∧ (fetchTimetables ⟨0, 0⟩ 0 0
          [⟨⟨"metro", "14", "pyramides", "A"⟩, .error "boom", .ok []⟩] true
          ⟨none, none, none, none⟩).state = ⟨none, none, none, none⟩
      ∧ (fetchTimetables ⟨0, 0⟩ 0 0
          [⟨⟨"metro", "14", "pyramides", "A"⟩, .error "boom", .ok []⟩] true
          ⟨none, none, none, none⟩).notified = false)
    ∧ ((∃ e, (fetchTraffic [⟨⟨"metro", "14", "", ""⟩, .error "boom"⟩] true
          ⟨none, none, none, none⟩).result = .error e)
      ∧ (fetchTraffic [⟨⟨"metro", "14", "", ""⟩, .error "boom"⟩] true
          ⟨none, none, none, none⟩).state = ⟨none, none, none, none⟩
      ∧ (fetchTraffic [⟨⟨"metro", "14", "", ""⟩, .error "boom"⟩] true
          ⟨none, none, none, none⟩).notified = false) :=
  ⟨fetch_failure_aborts_batch.1 ⟨0, 0⟩ 0 0 _ true _ 0 _ "boom" rfl (Or.inl rfl),
    fetch_failure_aborts_batch.2 _ true _ 0 _ "boom" rfl rfl⟩

/-- C6: a successful cycle commits by rotation scoped to its own
category: after `fetchTimetables`, the previous timetables slot holds
exactly what the current slot held before the call, the current slot
holds the new result, and both traffic slots are unchanged;
symmetrically for `fetchTraffic`. -/
theorem fetch_commit_rotates_scoped :
    (∀ (clock : Clock) (fetchNow commitNow : Int) (reqs : List EntryReq) (notify : Bool)
        (st : HelperState) (out : List Station),
      (fetchTimetables clock fetchNow commitNow reqs notify st).result = .ok out →
      (fetchTimetables clock fetchNow commitNow reqs notify st).state.prevTimetables
          = st.currTimetables
        ∧ (fetchTimetables clock fetchNow commitNow reqs notify st).state.currTimetables
          = some out
        ∧ (fetchTimetables clock fetchNow commitNow reqs notify st).state.prevTraffic
          = st.prevTraffic
        ∧ (fetchTimetables clock fetchNow commitNow reqs notify st).state.currTraffic
          = st.currTraffic)
    ∧ (∀ (reqs : List TrafficReq) (notify : Bool) (st : HelperState) (out : List Traffic),
      (fetchTraffic reqs notify st).result = .ok out →
      (fetchTraffic reqs notify st).state.prevTraffic = st.currTraffic
        ∧ (fetchTraffic reqs notify st).state.currTraffic = some out
        ∧ (fetchTraffic reqs notify st).state.prevTimetables = st.prevTimetables
        ∧ (fetchTraffic reqs notify st).state.currTimetables = st.currTimetables) := by
  constructor
  · intro clock fetchNow commitNow reqs notify st out hok
    rcases fetchTimetables_eq clock fetchNow commitNow reqs notify st with
      ⟨e, ha, heq⟩ | ⟨fetched, e, ha, hm, heq⟩ | ⟨fetched, out', ha, hm, heq⟩
    · rw [heq] at hok
      simp at hok
    · rw [heq] at hok
      simp at hok
    · rw [heq] at hok
      simp only [Except.ok.injEq] at hok
      subst hok
      rw [heq]
      exact ⟨rfl, rfl, rfl, rfl⟩
  · intro reqs notify st out hok
    rcases fetchTraffic_eq reqs notify st with ⟨e, ha, heq⟩ | ⟨t, ha, heq⟩
    · rw [heq] at hok
      simp at hok
    · rw [heq] at hok
      simp only [Except.ok.injEq] at hok
      subst hok
      rw [heq]
      exact ⟨rfl, rfl, rfl, rfl⟩

/-- Witness for C6: a successful empty cycle of each category rotates
its own slots and leaves the other category untouched. -/
theorem fetch_commit_rotates_scoped_witness :
    ((fetchTimetables ⟨0, 0⟩ 0 0 [] true ⟨none, some [], some [], none⟩).state.prevTimetables
        = some []
      ∧ (fetchTimetables ⟨0, 0⟩ 0 0 [] true ⟨none, some [], some [], none⟩).state.currTimetables
        = some []
      ∧ (fetchTimetables ⟨0, 0⟩ 0 0 [] true ⟨none, some [], some [], none⟩).state.prevTraffic
        = some []
      ∧ (fetchTimetables ⟨0, 0⟩ 0 0 [] true ⟨none, some [], some [], none⟩).state.currTraffic
        = none)
    ∧ ((fetchTraffic [] false ⟨none, some [], some [], none⟩).state.prevTraffic = none
      ∧ (fetchTraffic [] false ⟨none, some [], some [], none⟩).state.currTraffic = some []
      ∧ (fetchTraffic [] false ⟨none, some [], some [], none⟩).state.prevTimetables = none
      ∧ (fetchTraffic [] false ⟨none, some [], some [], none⟩).state.currTimetables = some []) :=
  ⟨fetch_commit_rotates_scoped.1 ⟨0, 0⟩ 0 0 [] true ⟨none, some [], some [], none⟩ [] rfl,
    fetch_commit_rotates_scoped.2 [] false ⟨none, some [], some [], none⟩ [] rfl⟩

/-- C1: in a committing `fetchTimetables` cycle, an entry whose fresh
timetable is unavailable while a previous snapshot exists and its entry
at the same index is available is committed as an estimation: marked
estimated, keeping the previous entry's `requestedAt` rather than the
current time, its pass list rebuilt from the previous entry's passes
with destination preserved and each integer waiting time
`w` re-estimated to `round(w - (now - previousRequestedAt) / 60000)`,
the rebuilt list then passing through the unconditional validity
filter. -/
theorem fetchTimetables_fallback_estimation
    (clock : Clock) (fetchNow commitNow : Int) (reqs : List EntryReq) (notify : Bool)
    (st : HelperState) (fetched prev out : List Station) (i : Nat) (s prevEntry : Station)
    (hassemble : assembleAll clock fetchNow reqs = .ok fetched)
    (hprev : st.currTimetables = some prev)
    (hok : (fetchTimetables clock fetchNow commitNow reqs notify st).result = .ok out)
    (hfresh : fetched[i]? = some s)
    (hnotavail : isTimetableAvailable (s.timetable.map Pass.toObj) = false)
    (hprevEntry : prev[i]? = some prevEntry)
    (hprevavail : isTimetableAvailable (prevEntry.timetable.map Pass.toObj) = true) :
    ∃ e, out[i]? = some e
      ∧ e.estimation = true
      ∧ e.requestedAt = prevEntry.requestedAt
      ∧ e.timetable
          = (prevEntry.timetable.map (estimatePass commitNow prevEntry.requestedAt)).filter
            (fun p => isWaitingTimeValid p.waitingTime)
      ∧ (∀ p : Pass, (estimatePass commitNow prevEntry.requestedAt p).destination = p.destination)
      ∧ (∀ (p : Pass) (w : Int), p.waitingTime = WTime.num w →
          (estimatePass commitNow prevEntry.requestedAt p).waitingTime
            = WTime.num (round
                ((w : ℚ) - ((commitNow : ℚ) - (prevEntry.requestedAt : ℚ)) / 60000)))
      ∧ (fetchTimetables clock fetchNow commitNow reqs notify st).state.currTimetables
          = some out := by
  rcases fetchTimetables_eq clock fetchNow commitNow reqs notify st with
    ⟨e, ha, heq⟩ | ⟨fetched', e, ha, hm, heq⟩ | ⟨fetched', out', ha, hm, heq⟩
  · rw [heq] at hok
    simp at hok
  · rw [heq] at hok
    simp at hok
  · have hf : fetched' = fetched := by
      rw [hassemble] at ha
      exact (Except.ok.inj ha).symm
    subst hf
    rw [heq] at hok
    simp only [Except.ok.injEq] at hok
    subst hok
    obtain ⟨e, hte, hout⟩ :=
      mapEntriesFrom_ok_get commitNow st.currTimetables fetched' out' 0 i s hm hfresh
    rw [hprev] at hte
    unfold transformEntry at hte
    simp only [hnotavail, Bool.false_eq_true, if_false, Nat.zero_add, hprevEntry, hprevavail,
      if_true] at hte
    have he : e = applyFilter { s with
        timetable := prevEntry.timetable.map (estimatePass commitNow prevEntry.requestedAt),
        requestedAt := prevEntry.requestedAt,
        estimation := true } := (Except.ok.inj hte).symm
    subst he
    refine ⟨_, hout, rfl, rfl, rfl, fun p => rfl, ?_, by rw [heq]⟩
    intro p w hw
    show estimateWT p.waitingTime (commitNow - prevEntry.requestedAt) = _
    rw [hw]
    show WTime.num (roundDiv (60000 * w - (commitNow - prevEntry.requestedAt)) 60000) = _
    rw [roundDiv_sub_eq_round]
    congr 1
    push_cast
    ring

/-- Witness for C1: the spec fallback scenario — a previous pass of 5
minutes observed at time 0, an unavailable live fetch at time 120000 —
commits an estimated entry anchored at time 0 whose single pass is
`round(5 - 2) = 3`. -/
theorem fetchTimetables_fallback_estimation_witness :
    ∃ e, ([⟨[⟨WTime.num 3, "Olympiades"⟩], "metro", "14", "Pyramides", 0, true⟩] :
          List Station)[0]? = some e
      ∧ e.estimation = true
      ∧ e.requestedAt = 0
      ∧ e.timetable = (([⟨WTime.num 5, "Olympiades"⟩] : List Pass).map
            (estimatePass 120000 0)).filter (fun p => isWaitingTimeValid p.waitingTime)
      ∧ (∀ p : Pass, (estimatePass 120000 0 p).destination = p.destination)
      ∧ (∀ (p : Pass) (w : Int), p.waitingTime = WTime.num w →
          (estimatePass 120000 0 p).waitingTime
            = WTime.num (round ((w : ℚ) - (((120000 : Int) : ℚ) - ((0 : Int) : ℚ)) / 60000)))
      ∧ (fetchTimetables ⟨0, 0⟩ 120000 120000
            [⟨⟨"metro", "14", "pyramides", "A"⟩, .ok [⟨"pyramides", "Pyramides"⟩], .ok []⟩] true
            ⟨none, some [⟨[⟨WTime.num 5, "Olympiades"⟩], "metro", "14", "Pyramides", 0, false⟩],
              none, none⟩).state.currTimetables
          = some [⟨[⟨WTime.num 3, "Olympiades"⟩], "metro", "14", "Pyramides", 0, true⟩] :=
  fetchTimetables_fallback_estimation ⟨0, 0⟩ 120000 120000
    [⟨⟨"metro", "14", "pyramides", "A"⟩, .ok [⟨"pyramides", "Pyramides"⟩], .ok []⟩] true
    ⟨none, some [⟨[⟨WTime.num 5, "Olympiades"⟩], "metro", "14", "Pyramides", 0, false⟩],
      none, none⟩
    [⟨[], "metro", "14", "Pyramides", 120000, false⟩]
    [⟨[⟨WTime.num 5, "Olympiades"⟩], "metro", "14", "Pyramides", 0, false⟩]
    [⟨[⟨WTime.num 3, "Olympiades"⟩], "metro", "14", "Pyramides", 0, true⟩]
    0
    ⟨[], "metro", "14", "Pyramides", 120000, false⟩
    ⟨[⟨WTime.num 5, "Olympiades"⟩], "metro", "14", "Pyramides", 0, false⟩
    rfl rfl rfl rfl (by decide) rfl (by decide)

/-- C9: in a committing `fetchTimetables` cycle, every entry whose fresh
pass list is non-empty is available in the sense of
`isTimetableAvailable` — because the check reads the absent `waiting`
property of the assembled passes, which is `undefined` and so never
`null` — and is therefore committed un-estimated with its fresh
(filtered) passes, even when every parsed waiting time in them is
null. -/
theorem fetchTimetables_fresh_nonempty_skips_estimation
    (clock : Clock) (fetchNow commitNow : Int) (reqs : List EntryReq) (notify : Bool)
    (st : HelperState) (fetched out : List Station) (i : Nat) (s : Station)
    (hassemble : assembleAll clock fetchNow reqs = .ok fetched)
    (hok : (fetchTimetables clock fetchNow commitNow reqs notify st).result = .ok out)
    (hfresh : fetched[i]? = some s)
    (hne : s.timetable ≠ []) :
    isTimetableAvailable (s.timetable.map Pass.toObj) = true
    ∧ (∀ p : Pass, getProp (Pass.toObj p) "waiting" = JSVal.undef)
    ∧ s.estimation = false
    ∧ ∃ e, out[i]? = some e ∧ e.estimation = false ∧ e.requestedAt = s.requestedAt
        ∧ e.timetable = s.timetable.filter (fun p => isWaitingTimeValid p.waitingTime) := by
  have havail : isTimetableAvailable (s.timetable.map Pass.toObj) = true := by
    rw [isTimetableAvailable_map_toObj]
    cases hcs : s.timetable with
    | nil => exact absurd hcs hne
    | cons a l => rfl
  have hest : s.estimation = false := by
    have hmap :=
      promiseAll_ok_at (reqs.map (buildEntry clock fetchNow)) fetched hassemble i s hfresh
    rw [List.getElem?_map] at hmap
    cases hr : reqs[i]? with
    | none => rw [hr] at hmap; simp at hmap
    | some req =>
      rw [hr] at hmap
      have hb : buildEntry clock fetchNow req = .ok s := by
        simpa using hmap
      exact (buildEntry_ok_shape clock fetchNow req s hb).1
  refine ⟨havail, fun p => rfl, hest, ?_⟩
  rcases fetchTimetables_eq clock fetchNow commitNow reqs notify st with
    ⟨e, ha, heq⟩ | ⟨fetched', e, ha, hm, heq⟩ | ⟨fetched', out', ha, hm, heq⟩
  · rw [heq] at hok
    simp at hok
  · rw [heq] at hok
    simp at hok
  · have hf : fetched' = fetched := by
      rw [hassemble] at ha
      exact (Except.ok.inj ha).symm
    subst hf
    rw [heq] at hok
    simp only [Except.ok.injEq] at hok
    subst hok
    obtain ⟨e, hte, hout⟩ :=
      mapEntriesFrom_ok_get commitNow st.currTimetables fetched' out' 0 i s hm hfresh
    unfold transformEntry at hte
    simp only [havail, eq_self_iff_true, if_true] at hte
    have he : e = applyFilter s := (Except.ok.inj hte).symm
    subst he
    exact ⟨_, hout, hest, rfl, rfl⟩

/-- Witness for C9: a fresh timetable whose first (and only leading)
waiting time is null is still committed un-estimated with both passes
retained. -/
theorem fetchTimetables_fresh_nonempty_skips_estimation_witness :
    isTimetableAvailable (([⟨WTime.null, "X"⟩, ⟨WTime.num 3, "Y"⟩] : List Pass).map Pass.toObj)
        = true
    ∧ (∀ p : Pass, getProp (Pass.toObj p) "waiting" = JSVal.undef)
    ∧ (⟨[⟨WTime.null, "X"⟩, ⟨WTime.num 3, "Y"⟩], "metro", "14", "Pyramides", 0, false⟩ :
        Station).estimation = false
    ∧ ∃ e, ([⟨[⟨WTime.null, "X"⟩, ⟨WTime.num 3, "Y"⟩], "metro", "14", "Pyramides", 0, false⟩] :
          List Station)[0]? = some e
        ∧ e.estimation = false
        ∧ e.requestedAt = 0
        ∧ e.timetable = ([⟨WTime.null, "X"⟩, ⟨WTime.num 3, "Y"⟩] : List Pass).filter
            (fun p => isWaitingTimeValid p.waitingTime) :=
  fetchTimetables_fresh_nonempty_skips_estimation ⟨0, 0⟩ 0 0
    [⟨⟨"metro", "14", "pyramides", "A"⟩, .ok [⟨"pyramides", "Pyramides"⟩],
      .ok [⟨"Schedules unavailable", "X"⟩, ⟨"3 mn", "Y"⟩]⟩] true
    ⟨none, none, none, none⟩
    [⟨[⟨WTime.null, "X"⟩, ⟨WTime.num 3, "Y"⟩], "metro", "14", "Pyramides", 0, false⟩]
    [⟨[⟨WTime.null, "X"⟩, ⟨WTime.num 3, "Y"⟩], "metro", "14", "Pyramides", 0, false⟩]
    0
    ⟨[⟨WTime.null, "X"⟩, ⟨WTime.num 3, "Y"⟩], "metro", "14", "Pyramides", 0, false⟩
    rfl rfl rfl (by decide)

/-- C10: in the fallback check the previous snapshot entry at the
current index is read without an existence guard: when a previous
snapshot exists but is shorter than the fetched list and the fresh
timetable at an out-of-range index is unavailable, the cycle throws a
TypeError instead of committing or skipping the fallback — the operation
rejects, the current timetables slot is not overwritten, and no
notification is sent. -/
theorem fallback_unguarded_prev_index_throws
    (clock : Clock) (fetchNow commitNow : Int) (reqs : List EntryReq) (notify : Bool)
    (st : HelperState) (fetched prev : List Station) (i : Nat) (s : Station)
    (hassemble : assembleAll clock fetchNow reqs = .ok fetched)
    (hprev : st.currTimetables = some prev)
    (hfresh : fetched[i]? = some s)
    (hnotavail : isTimetableAvailable (s.timetable.map Pass.toObj) = false)
    (hoob : prev.length ≤ i) :
    (∃ e, (fetchTimetables clock fetchNow commitNow reqs notify st).result = .error e)
    ∧ (fetchTimetables clock fetchNow commitNow reqs notify st).state.currTimetables
        = st.currTimetables
    ∧ (fetchTimetables clock fetchNow commitNow reqs notify st).notified = false := by
  have hidx : prev[(0 + i : Nat)]? = none := by
    rw [Nat.zero_add]
    exact List.getElem?_eq_none hoob
  have hterr : transformEntry commitNow (some prev) (0 + i) s
      = .error "TypeError: cannot read property timetable of undefined" := by
    unfold transformEntry
    simp only [hnotavail, Bool.false_eq_true, if_false, hidx]
  obtain ⟨e, he⟩ := mapEntriesFrom_error_at commitNow (some prev) fetched 0 i s _ hfresh hterr
  rcases fetchTimetables_eq clock fetchNow commitNow reqs notify st with
    ⟨e', ha, heq⟩ | ⟨fetched', e', ha, hm, heq⟩ | ⟨fetched', out', ha, hm, heq⟩
  · rw [hassemble] at ha
    simp at ha
  · rw [heq]
    exact ⟨⟨e', rfl⟩, rfl, rfl⟩
  · have hf : fetched' = fetched := by
      rw [hassemble] at ha
      exact (Except.ok.inj ha).symm
    subst hf
    rw [hprev] at hm
    rw [he] at hm
    simp at hm

/-- Witness for C10: an empty previous snapshot together with one
unavailable fresh entry makes the cycle reject without overwriting the
current slot. -/
theorem fallback_unguarded_prev_index_throws_witness :
    (∃ e, (fetchTimetables ⟨0, 0⟩ 120000 120000
        [⟨⟨"metro", "14", "pyramides", "A"⟩, .ok [⟨"pyramides", "Pyramides"⟩], .ok []⟩] true
        ⟨none, some [], none, none⟩).result = .error e)
    ∧ (fetchTimetables ⟨0, 0⟩ 120000 120000
        [⟨⟨"metro", "14", "pyramides", "A"⟩, .ok [⟨"pyramides", "Pyramides"⟩], .ok []⟩] true
        ⟨none, some [], none, none⟩).state.currTimetables = some []
    ∧ (fetchTimetables ⟨0, 0⟩ 120000 120000
        [⟨⟨"metro", "14", "pyramides", "A"⟩, .ok [⟨"pyramides", "Pyramides"⟩], .ok []⟩] true
        ⟨none, some [], none, none⟩).notified = false :=
  fallback_unguarded_prev_index_throws ⟨0, 0⟩ 120000 120000
    [⟨⟨"metro", "14", "pyramides", "A"⟩, .ok [⟨"pyramides", "Pyramides"⟩], .ok []⟩] true
    ⟨none, some [], none, none⟩
    [⟨[], "metro", "14", "Pyramides", 120000, false⟩] [] 0
    ⟨[], "metro", "14", "Pyramides", 120000, false⟩
    rfl rfl rfl (by decide) (by decide)
